import Mathlib

/-!
# Verification development for drgarcia1986.github.io

Two Go programs are embedded here.

* `influxdb` : `building-a-personal-activity-tracker/api/pkg/influxdb/payload.go`,
  the classifier from a window (process class, title) to a metric.
* `RunningPods` : `programming-kubernetes-running-pods/main.go`, the gateway that
  creates a pod, polls it until its first container has terminated, reads its logs
  and answers an HTTP request with the exit code and the output.

Go strings are embedded as `String`, `int32` values that are only copied as `Int`,
slices as `List`, a Go `error` result as `Option Error` (`none` is `nil`), and a run
time panic as `none` of an `Option` result.
-/

namespace influxdb

/-- The Go type `category` (payload.go:9-12). -/
structure category where
  name : String
  score : Int
deriving DecidableEq, Repr

/-- The Go type `metric` (payload.go:14-17). -/
structure metric where
  category : category
  app : String
deriving DecidableEq, Repr

def WORK_CATEGORY : category := { name := "work", score := 1 }

def SOCIAL_CATEGORY : category := { name := "social", score := 0 }

def GAME_CATEGORY : category := { name := "game", score := -1 }

def UNKNOWN_CATEGORY : category := { name := "unknown", score := 0 }

/-- Whether the first list of characters starts the second one. -/
def startsWithChars : List Char → List Char → Bool
  | [], _ => true
  | _ :: _, [] => false
  | p :: ps, c :: cs => p == c && startsWithChars ps cs

/-- Scan of `strings.Split` for a non-empty separator: `skip` counts the characters of
a separator just matched that are still to be dropped, `piece` is the current piece,
reversed. The separator is matched left to right, leftmost match first. -/
def splitFrom (sep : List Char) : List Char → Nat → List Char → List (List Char)
  | [], _, piece => [piece.reverse]
  | _ :: cs, skip + 1, piece => splitFrom sep cs skip piece
  | c :: cs, 0, piece =>
    if startsWithChars sep (c :: cs) then
      piece.reverse :: splitFrom sep cs (sep.length - 1) []
    else
      splitFrom sep cs 0 (c :: piece)

/-- Go standard library `strings.Split(s, sep)`: all substrings of `s` separated by
`sep`; with an empty separator the string is cut after each character. The result
of a non-empty separator that does not occur in `s` is the one-element list `[s]`. -/
def Split (s sep : String) : List String :=
  if sep.data = [] then s.data.map (fun c => String.mk [c])
  else (splitFrom sep.data s.data 0 []).map String.mk

/-- Whether `sub` occurs in the list of characters. -/
def containsChars (sub : List Char) : List Char → Bool
  | [] => startsWithChars sub []
  | c :: cs => startsWithChars sub (c :: cs) || containsChars sub cs

/-- Go standard library `strings.Contains(s, substr)`. -/
def Contains (s substr : String) : Bool := containsChars substr.data s.data

/-- Source `convertTerminalAppName` (payload.go:26-29). The index expression
`windowTitle[1]` panics when the slice has fewer than two elements; the panic is
the result `none`. -/
def convertTerminalAppName (title : String) : Option String :=
  let windowTitle := Split title " - "
  windowTitle[1]?

/-- Source `convertBrowserCategory` (payload.go:31-36). -/
def convertBrowserCategory (title : String) : category :=
  if Contains title "Twitter" then SOCIAL_CATEGORY else WORK_CATEGORY

/-- Source `convertToMetric` (payload.go:38-71); `none` is a panic raised while the
metric is built. -/
def convertToMetric (class_ title : String) : Option metric :=
  if class_ = "gnome-terminal-server" then
    match convertTerminalAppName title with
    | none => none
    | some app => some { category := WORK_CATEGORY, app := app }
  else if class_ = "Navigator" then
    some { category := convertBrowserCategory title, app := "FireFox" }
  else if class_ = "telegram" then
    some { category := SOCIAL_CATEGORY, app := class_ }
  else if class_ = "Steam" then
    some { category := GAME_CATEGORY, app := "Steam" }
  else if class_ = "WM_CLASS: not found." then
    if title = "UNDERTALE" then
      some { category := GAME_CATEGORY, app := title }
    else
      some { category := UNKNOWN_CATEGORY, app := title }
  else
    some { category := UNKNOWN_CATEGORY, app := title }

end influxdb

namespace RunningPods

/-! ## Data model -/

/-- Go `time.Second`, a `time.Duration` counted in nanoseconds. -/
def Second : Nat := 1000000000

/-- Go `time.Minute`. -/
def Minute : Nat := 60 * Second

/-- A Go `error` value seen by the program. `failure msg` is an error returned by a
library call (the orchestrator API or the JSON decoder), `cancelled` is the error of
a call made with a cancelled context, `deadlineExceeded` is the error of the poller
whose timeout has run out. -/
inductive Error where
  | failure (msg : String)
  | cancelled
  | deadlineExceeded
deriving DecidableEq, Repr

/-- A `context.Context`, reduced to the instant at which it is cancelled, counted in
nanoseconds on the clock of the call that receives it; `none` is a context that is
never cancelled. -/
structure Context where
  cancelledAt : Option Nat
deriving DecidableEq, Repr

/-- Go `context.Background()`, which is never cancelled (main.go:117). -/
def Background : Context := { cancelledAt := none }

/-- Whether the context is cancelled at the instant `now`. -/
def Context.done (ctx : Context) (now : Nat) : Bool :=
  match ctx.cancelledAt with
  | none => false
  | some c => decide (c ≤ now)

/-- Values of `v1.RestartPolicy`. -/
inductive RestartPolicy where
  | Always
  | OnFailure
  | Never
deriving DecidableEq, Repr

/-- The fields of `v1.Container` that the program sets. -/
structure Container where
  Name : String
  Image : String
  Command : List String
  Args : List String
deriving DecidableEq, Repr

/-- The fields of `v1.PodSpec` that the program sets. -/
structure PodSpec where
  RestartPolicy : RestartPolicy
  Containers : List Container
deriving DecidableEq, Repr

/-- The field of `metav1.ObjectMeta` that the program sets. -/
structure ObjectMeta where
  Name : String
deriving DecidableEq, Repr

/-- The field of `v1.ContainerStateTerminated` that the program reads. -/
structure ContainerStateTerminated where
  ExitCode : Int
deriving DecidableEq, Repr

/-- Type `v1.ContainerState`: three pointers, of which the program reads only
`Terminated`; `Waiting` and `Running` are kept as flags (pointer set or nil). -/
structure ContainerState where
  Waiting : Bool
  Running : Bool
  Terminated : Option ContainerStateTerminated
deriving DecidableEq, Repr

structure ContainerStatus where
  State : ContainerState
deriving DecidableEq, Repr

structure PodStatus where
  ContainerStatuses : List ContainerStatus
deriving DecidableEq, Repr

/-- The fields of `v1.Pod` that the program sets or reads. -/
structure Pod where
  ObjectMeta : ObjectMeta
  Spec : PodSpec
  Status : PodStatus
deriving DecidableEq, Repr

/-- The orchestrator as the program sees it through `c.k8s.CoreV1().Pods(ns)`: the
answers of the four calls it makes. Every call receives the context. `Get`
also receives the number of `Get` calls answered before it and the instant of the
call, so that the answers may change from one inspection to the next. -/
structure Cluster where
  Create : Context → String → Pod → Option Error
  Get : Context → String → String → Nat → Nat → Except Error Pod
  GetLogs : Context → String → String → Except Error String
  Delete : Context → String → String → Option Error

/-- Source `Client` (main.go:19-22). -/
structure Client where
  k8s : Cluster
  ns : String

/-! ## Execution-unit client -/

/-- Source `Client.CreatePod` (main.go:24-45): build the pod object, submit it, and
return the error of `Create`. -/
def CreatePod (c : Client) (ctx : Context) (name image command : String)
    (args : List String) : Option Error :=
  let pod : Pod :=
    { ObjectMeta := { Name := name }
      Spec :=
        { RestartPolicy := RestartPolicy.Never
          Containers :=
            [{ Name := "main", Image := image, Command := [command], Args := args }] }
      Status := { ContainerStatuses := [] } }
  c.k8s.Create ctx c.ns pod

/-- What the poller did, in order: `inspect t` is a call of the condition at elapsed
time `t`; `wait t u` is a sleep from `t` to `u`; `deadline t` is the timeout firing
at `t`, which closes the channel of ticks. -/
inductive PollEvent where
  | inspect (t : Nat)
  | wait (t u : Nat)
  | deadline (t : Nat)
deriving DecidableEq, Repr

/-- Result of a poll: the error returned, the variables captured by the condition
as the poll leaves them, and what the poller did. -/
structure PollResult (σ : Type) where
  err : Option Error
  vars : σ
  events : List PollEvent

/-- Modelled from the spec: the end of a poll of `wait.PollImmediate`, whose source
is not part of the repository. No tick is left at `now`: the poller sleeps until the
timeout fires and closes its channel of ticks, and the library calls the condition
once more on the closed channel; an error or a true answer of that last call is
the result of the poll, any other answer is the timeout error (the spec's
`DeadlineExceeded`). -/
def lastCheck {σ : Type} (timeout : Nat)
    (condition : Nat → σ → (Bool × Option Error) × σ) (now : Nat) (s : σ) :
    PollResult σ :=
  match condition timeout s with
  | ((_, some err), s1) =>
    { err := some err, vars := s1
      events := [.wait now timeout, .deadline timeout, .inspect timeout] }
  | ((true, none), s1) =>
    { err := none, vars := s1
      events := [.wait now timeout, .deadline timeout, .inspect timeout] }
  | ((false, none), s1) =>
    { err := some Error.deadlineExceeded, vars := s1
      events := [.wait now timeout, .deadline timeout, .inspect timeout] }

/-- Modelled from the spec: the loop of `wait.PollImmediate` (section 4.2), whose
source is not part of the repository, with `ticks` interval ticks still to come
before the timeout fires: call the condition now; an error or a true answer ends
the poll at once; otherwise sleep one interval if a tick is left, and go to the
last check if none is. -/
def pollTicks {σ : Type} (interval timeout : Nat)
    (condition : Nat → σ → (Bool × Option Error) × σ) : Nat → Nat → σ → PollResult σ
  | 0, now, s =>
    match condition now s with
    | ((_, some err), s1) => { err := some err, vars := s1, events := [.inspect now] }
    | ((true, none), s1) => { err := none, vars := s1, events := [.inspect now] }
    | ((false, none), s1) =>
      let r := lastCheck timeout condition now s1
      { r with events := .inspect now :: r.events }
  | n + 1, now, s =>
    match condition now s with
    | ((_, some err), s1) => { err := some err, vars := s1, events := [.inspect now] }
    | ((true, none), s1) => { err := none, vars := s1, events := [.inspect now] }
    | ((false, none), s1) =>
      let r := pollTicks interval timeout condition n (now + interval) s1
      { r with events := .inspect now :: .wait now (now + interval) :: r.events }

/-- Modelled from the spec: `wait.PollImmediate(interval, timeout, condition)` of
k8s.io/apimachinery, whose source is not part of the repository. Section 4.2 of
the spec: the condition is called on a fixed cadence, the first time without
waiting; an error ends the poll with that error, a terminal answer ends it with
success, any other answer keeps it going. The call in main.go passes the poller an
interval, a timeout and the condition, and no context. One tick is counted for
each whole interval that fits in the timeout; the time a call of the condition
takes is not counted. The end of the poll follows the library and not the spec:
when the timeout fires the condition is called one last time (`lastCheck`), and
only then does the poll fail with the timeout error. -/
def PollImmediate {σ : Type} (interval timeout : Nat)
    (condition : Nat → σ → (Bool × Option Error) × σ) (s : σ) : PollResult σ :=
  pollTicks interval timeout condition (timeout / interval) 0 s

/-- Variables captured by the condition closure of `GetPodExitCode`: the local
`exitCode`, and the number of `Get` calls made so far. -/
structure PollVars where
  exitCode : Int
  gets : Nat
deriving DecidableEq, Repr

/-- The condition closure of `GetPodExitCode` (main.go:50-63), called at elapsed time
`now`: the result is the pair `(done, err)` it returns and the captured variables
after the call. -/
def exitCodeCondition (c : Client) (ctx : Context) (name : String) (now : Nat)
    (v : PollVars) : (Bool × Option Error) × PollVars :=
  match c.k8s.Get ctx c.ns name v.gets now with
  | .error err => ((false, some err), { v with gets := v.gets + 1 })
  | .ok p =>
    match p.Status.ContainerStatuses with
    | [] => ((false, none), { v with gets := v.gets + 1 })
    | first :: _ =>
      match first.State.Terminated with
      | some status => ((true, none), { exitCode := status.ExitCode, gets := v.gets + 1 })
      | none => ((false, none), { v with gets := v.gets + 1 })

/-- What a call of `GetPodExitCode` returns, with what its poller did. -/
structure ExitCodeRun where
  exitCode : Int
  err : Option Error
  events : List PollEvent
deriving DecidableEq, Repr

/-- Source `Client.GetPodExitCode` (main.go:47-65). -/
def GetPodExitCode (c : Client) (ctx : Context) (name : String) : ExitCodeRun :=
  let r := PollImmediate (3 * Second) (2 * Minute) (exitCodeCondition c ctx name)
    { exitCode := 0, gets := 0 }
  { exitCode := r.vars.exitCode, err := r.err, events := r.events }

/-- Source `Client.GetPodStdOut` (main.go:67-78). -/
def GetPodStdOut (c : Client) (ctx : Context) (name : String) : String × Option Error :=
  match c.k8s.GetLogs ctx c.ns name with
  | .error err => ("", some err)
  | .ok stdout => (stdout, none)

/-- Source `Client.DeletePod` (main.go:80-84). -/
def DeletePod (c : Client) (ctx : Context) (name : String) : Option Error :=
  c.k8s.Delete ctx c.ns name

/-! ## HTTP handler -/

/-- Source `RequestBody` (main.go:101-105). -/
structure RequestBody where
  Image : String
  Command : String
  Args : List String
deriving DecidableEq, Repr

/-- Source `ResponseBody` (main.go:107-110). -/
structure ResponseBody where
  ExitCode : Int
  Output : String
deriving DecidableEq, Repr

/-- What the handler does, in program order: the client methods it calls, the
goroutine it starts, and what it writes to the `http.ResponseWriter`.
`httpError err code` is `http.Error(w, err.Error(), code)`. -/
inductive Effect where
  | CreatePod (name image command : String) (args : List String)
  | GetPodExitCode (name : String)
  | GetPodStdOut (name : String)
  | goDeletePod (name : String)
  | httpError (err : Error) (code : Nat)
  | SetHeader (key value : String)
  | WriteHeader (code : Nat)
  | Encode (body : ResponseBody)
deriving DecidableEq, Repr

/-- What the goroutine started by the handler does (main.go:146-150). -/
inductive TaskEffect where
  | DeletePod (name : String)
  | logPrintf (err : Error)
deriving DecidableEq, Repr

/-- Body of the goroutine of main.go:146-150: delete the pod and log a failure. -/
def deleteTask (cli : Client) (ctx : Context) (name : String) : List TaskEffect :=
  match DeletePod cli ctx name with
  | some err => [.DeletePod name, .logPrintf err]
  | none => [.DeletePod name]

/-- The handler registered by `main` (main.go:119-157), for a client `cli` and the
outcome of decoding the request body. The context is the one `main` creates. -/
def handler (cli : Client) (decoded : Except Error RequestBody) : List Effect :=
  let ctx := Background
  match decoded with
  | .error err => [.httpError err 400]
  | .ok rb =>
    match CreatePod cli ctx "rtw" rb.Image rb.Command rb.Args with
    | some err =>
      [.CreatePod "rtw" rb.Image rb.Command rb.Args, .httpError err 500]
    | none =>
      let run := GetPodExitCode cli ctx "rtw"
      match run.err with
      | some err =>
        [.CreatePod "rtw" rb.Image rb.Command rb.Args, .GetPodExitCode "rtw",
          .httpError err 500]
      | none =>
        match GetPodStdOut cli ctx "rtw" with
        | (_, some err) =>
          [.CreatePod "rtw" rb.Image rb.Command rb.Args, .GetPodExitCode "rtw",
            .GetPodStdOut "rtw", .httpError err 500]
        | (stdout, none) =>
          [.CreatePod "rtw" rb.Image rb.Command rb.Args, .GetPodExitCode "rtw",
            .GetPodStdOut "rtw", .goDeletePod "rtw",
            .SetHeader "Content-type" "application/json", .WriteHeader 200,
            .Encode { ExitCode := run.exitCode, Output := stdout }]

/-! ## Vocabulary of the statements -/

/-- The events of a poll that inspects at `start`, then `k` more times, one interval
apart, sleeping a whole interval before each further inspection. -/
def cadence (interval : Nat) : Nat → Nat → List PollEvent
  | start, 0 => [.inspect start]
  | start, k + 1 =>
    .inspect start :: .wait start (start + interval) :: cadence interval (start + interval) k

/-- A pod on which the condition of `GetPodExitCode` keeps polling: it has no
container status, or its first container status has no `Terminated` state. -/
def stillRunning (p : Pod) : Prop :=
  p.Status.ContainerStatuses = [] ∨
    ∃ first rest, p.Status.ContainerStatuses = first :: rest ∧ first.State.Terminated = none

/-- Number of inspections among the events of a poll. -/
def inspections : List PollEvent → Nat
  | [] => 0
  | .inspect _ :: es => inspections es + 1
  | .wait _ _ :: es => inspections es
  | .deadline _ :: es => inspections es

/-- Number of inspections that come after the timeout has fired. -/
def inspectionsAfterDeadline : List PollEvent → Nat
  | [] => 0
  | .deadline _ :: es => inspections es
  | .inspect _ :: es => inspectionsAfterDeadline es
  | .wait _ _ :: es => inspectionsAfterDeadline es

/-- Number of sleeps among the events of a poll. -/
def waits : List PollEvent → Nat
  | [] => 0
  | .inspect _ :: es => waits es
  | .wait _ _ :: es => waits es + 1
  | .deadline _ :: es => waits es

/-- The instant of the last event of a poll, at which the poll returns. -/
def returnedAt : List PollEvent → Nat
  | [] => 0
  | [.inspect t] => t
  | [.wait _ u] => u
  | [.deadline t] => t
  | _ :: e :: es => returnedAt (e :: es)

/-- The instant of inspection `j` (counted from 0) of `GetPodExitCode`: one
inspection every 3 s from 0 s to 120 s (inspections 0 to 40), and the last check,
when the 2 minute timeout has fired (inspection 41). -/
def inspectionInstant (j : Nat) : Nat := min (j * (3 * Second)) (2 * Minute)

/-- The events of a run of `GetPodExitCode` that ends with its inspection `k`: up
to inspection 40 the cadence of 3 s; then the timeout fires and inspection 41, the
last check, is made. -/
def exitCodeEvents (k : Nat) : List PollEvent :=
  if k ≤ 40 then cadence (3 * Second) 0 k
  else cadence (3 * Second) 0 40 ++
    [.wait (2 * Minute) (2 * Minute), .deadline (2 * Minute), .inspect (2 * Minute)]

/-! ## Concrete inputs -/

/-- A pod as the orchestrator reports it while the container has not started. -/
def pendingPod : Pod :=
  { ObjectMeta := { Name := "rtw" }
    Spec := { RestartPolicy := RestartPolicy.Never, Containers := [] }
    Status := { ContainerStatuses := [] } }

/-- A pod whose first container is running. -/
def runningPod : Pod :=
  { pendingPod with
    Status :=
      { ContainerStatuses :=
          [{ State := { Waiting := false, Running := true, Terminated := none } }] } }

/-- A pod whose first container has terminated with the given exit code. -/
def terminatedPod (exitCode : Int) : Pod :=
  { pendingPod with
    Status :=
      { ContainerStatuses :=
          [{ State :=
              { Waiting := false, Running := false
                Terminated := some { ExitCode := exitCode } } }] } }

/-- A cluster on which the pod is pending at the first inspection, running at the
second, and terminated with exit code 0 from the third on; its logs are "hi". -/
def echoCluster : Cluster :=
  { Create := fun _ _ _ => none
    Get := fun _ _ _ seq _ =>
      if seq = 0 then .ok pendingPod
      else if seq = 1 then .ok runningPod
      else .ok (terminatedPod 0)
    GetLogs := fun _ _ _ => .ok "hi\n"
    Delete := fun _ _ _ => none }

/-- A cluster that refuses to create the pod. -/
def refusingCluster : Cluster :=
  { echoCluster with Create := fun _ _ _ => some (Error.failure "pods rtw already exists") }

/-- A cluster on which the pod terminates with exit code 1 at the first inspection
and whose logs cannot be read. -/
def muteCluster : Cluster :=
  { Create := fun _ _ _ => none
    Get := fun _ _ _ _ _ => .ok (terminatedPod 1)
    GetLogs := fun _ _ _ => .error (Error.failure "container log unavailable")
    Delete := fun _ _ _ => none }

/-- A cluster on which the pod is gone at the second inspection. -/
def vanishingCluster : Cluster :=
  { echoCluster with
    Get := fun _ _ _ seq _ =>
      if seq = 0 then .ok pendingPod else .error (Error.failure "pods rtw not found") }

/-- A cluster on which the pod never leaves the pending phase, and whose `Get` fails
with the cancellation error once the context it is given is cancelled. -/
def stuckCluster : Cluster :=
  { Create := fun _ _ _ => none
    Get := fun ctx _ _ _ now => if ctx.done now then .error Error.cancelled else .ok pendingPod
    GetLogs := fun _ _ _ => .ok ""
    Delete := fun _ _ _ => none }

/-- A cluster on which the pod is pending at the 41 inspections made up to the
timeout, and terminated with exit code 7 after that. -/
def lateCluster : Cluster :=
  { Create := fun _ _ _ => none
    Get := fun _ _ _ seq _ => if seq < 41 then .ok pendingPod else .ok (terminatedPod 7)
    GetLogs := fun _ _ _ => .ok ""
    Delete := fun _ _ _ => none }

/-- The request of the scenario of the spec. -/
def echoRequest : RequestBody := { Image := "alpine", Command := "echo", Args := ["hi"] }

end RunningPods

/-! # Theorems -/

namespace RunningPods

/-! ## The condition closure of `GetPodExitCode` -/

theorem exitCodeCondition_error (c : Client) (ctx : Context) (name : String) (now g : Nat)
    (x : Int) (err : Error) (h : c.k8s.Get ctx c.ns name g now = .error err) :
    exitCodeCondition c ctx name now { exitCode := x, gets := g } =
      ((false, some err), { exitCode := x, gets := g + 1 }) := by
  simp [exitCodeCondition, h]

theorem exitCodeCondition_continue (c : Client) (ctx : Context) (name : String) (now g : Nat)
    (x : Int) (p : Pod) (h : c.k8s.Get ctx c.ns name g now = .ok p) (hp : stillRunning p) :
    exitCodeCondition c ctx name now { exitCode := x, gets := g } =
      ((false, none), { exitCode := x, gets := g + 1 }) := by
  rcases hp with hp | ⟨first, rest, hp, hfirst⟩
  · simp [exitCodeCondition, h, hp]
  · simp [exitCodeCondition, h, hp, hfirst]

theorem exitCodeCondition_terminated (c : Client) (ctx : Context) (name : String)
    (now g : Nat) (x : Int) (p : Pod) (first : ContainerStatus) (rest : List ContainerStatus)
    (status : ContainerStateTerminated) (h : c.k8s.Get ctx c.ns name g now = .ok p)
    (hp : p.Status.ContainerStatuses = first :: rest)
    (hfirst : first.State.Terminated = some status) :
    exitCodeCondition c ctx name now { exitCode := x, gets := g } =
      ((true, none), { exitCode := status.ExitCode, gets := g + 1 }) := by
  simp [exitCodeCondition, h, hp, hfirst]

/-! ## The poll loop -/

theorem lastCheck_events {σ : Type} (timeout : Nat)
    (condition : Nat → σ → (Bool × Option Error) × σ) (now : Nat) (s : σ) :
    (lastCheck timeout condition now s).events =
      [.wait now timeout, .deadline timeout, .inspect timeout] := by
  simp only [lastCheck]
  split <;> rfl

theorem lastCheck_error {σ : Type} (timeout : Nat)
    (condition : Nat → σ → (Bool × Option Error) × σ) (now : Nat) (s s1 : σ) (b : Bool)
    (err : Error) (h : condition timeout s = ((b, some err), s1)) :
    lastCheck timeout condition now s =
      { err := some err, vars := s1
        events := [.wait now timeout, .deadline timeout, .inspect timeout] } := by
  simp [lastCheck, h]

theorem lastCheck_done {σ : Type} (timeout : Nat)
    (condition : Nat → σ → (Bool × Option Error) × σ) (now : Nat) (s s1 : σ)
    (h : condition timeout s = ((true, none), s1)) :
    lastCheck timeout condition now s =
      { err := none, vars := s1
        events := [.wait now timeout, .deadline timeout, .inspect timeout] } := by
  simp [lastCheck, h]

theorem lastCheck_expired {σ : Type} (timeout : Nat)
    (condition : Nat → σ → (Bool × Option Error) × σ) (now : Nat) (s s1 : σ)
    (h : condition timeout s = ((false, none), s1)) :
    lastCheck timeout condition now s =
      { err := some Error.deadlineExceeded, vars := s1
        events := [.wait now timeout, .deadline timeout, .inspect timeout] } := by
  simp [lastCheck, h]

theorem pollTicks_error {σ : Type} (interval timeout : Nat)
    (condition : Nat → σ → (Bool × Option Error) × σ) (n now : Nat) (s s1 : σ) (b : Bool)
    (err : Error) (h : condition now s = ((b, some err), s1)) :
    pollTicks interval timeout condition n now s =
      { err := some err, vars := s1, events := [.inspect now] } := by
  cases n <;> simp [pollTicks, h]

theorem pollTicks_done {σ : Type} (interval timeout : Nat)
    (condition : Nat → σ → (Bool × Option Error) × σ) (n now : Nat) (s s1 : σ)
    (h : condition now s = ((true, none), s1)) :
    pollTicks interval timeout condition n now s =
      { err := none, vars := s1, events := [.inspect now] } := by
  cases n <;> simp [pollTicks, h]

theorem pollTicks_out_of_ticks {σ : Type} (interval timeout : Nat)
    (condition : Nat → σ → (Bool × Option Error) × σ) (now : Nat) (s s1 : σ)
    (h : condition now s = ((false, none), s1)) :
    pollTicks interval timeout condition 0 now s =
      { err := (lastCheck timeout condition now s1).err
        vars := (lastCheck timeout condition now s1).vars
        events := .inspect now :: (lastCheck timeout condition now s1).events } := by
  simp [pollTicks, h]

theorem pollTicks_sleep {σ : Type} (interval timeout : Nat)
    (condition : Nat → σ → (Bool × Option Error) × σ) (n now : Nat) (s s1 : σ)
    (h : condition now s = ((false, none), s1)) :
    pollTicks interval timeout condition (n + 1) now s =
      { err := (pollTicks interval timeout condition n (now + interval) s1).err
        vars := (pollTicks interval timeout condition n (now + interval) s1).vars
        events := .inspect now :: .wait now (now + interval) ::
          (pollTicks interval timeout condition n (now + interval) s1).events } := by
  simp [pollTicks, h]

/-- Every poll starts with an inspection, whatever the number of ticks left. -/
theorem pollTicks_inspections_pos {σ : Type} (interval timeout : Nat)
    (condition : Nat → σ → (Bool × Option Error) × σ) (n now : Nat) (s : σ) :
    1 ≤ inspections (pollTicks interval timeout condition n now s).events := by
  cases n <;> simp only [pollTicks] <;> split <;> simp [inspections]

/-- Shift of the hypothesis "the first `k + 1` inspections keep polling" by one
inspection. -/
theorem keepsPolling_shift (c : Client) (ctx : Context) (name : String)
    (interval k now g : Nat)
    (h : ∀ j, j < k + 1 →
      ∃ p, c.k8s.Get ctx c.ns name (g + j) (now + j * interval) = .ok p ∧ stillRunning p) :
    ∀ j, j < k →
      ∃ p, c.k8s.Get ctx c.ns name (g + 1 + j) (now + interval + j * interval) = .ok p ∧
        stillRunning p := by
  intro j hj
  have hstep := h (j + 1) (by omega)
  have e1 : g + (j + 1) = g + 1 + j := by omega
  have e2 : now + (j + 1) * interval = now + interval + j * interval := by
    rw [Nat.succ_mul]; omega
  rw [e1, e2] at hstep
  exact hstep

/-- After `k` inspections that keep polling, an inspection on a tick that fails ends
the poll with its error. -/
theorem pollTicks_exitCode_error (c : Client) (ctx : Context) (name : String)
    (interval timeout : Nat) (err : Error) (x : Int) :
    ∀ (k n now g : Nat),
      (∀ j, j < k → ∃ p, c.k8s.Get ctx c.ns name (g + j) (now + j * interval) = .ok p ∧
        stillRunning p) →
      c.k8s.Get ctx c.ns name (g + k) (now + k * interval) = .error err →
      pollTicks interval timeout (exitCodeCondition c ctx name) (k + n) now
          { exitCode := x, gets := g } =
        { err := some err, vars := { exitCode := x, gets := g + k + 1 }
          events := cadence interval now k } := by
  intro k
  induction k with
  | zero =>
    intro n now g _ hk
    simp only [Nat.zero_mul, Nat.add_zero] at hk
    rw [pollTicks_error interval timeout _ _ now _ _ false err
      (exitCodeCondition_error c ctx name now g x err hk)]
    simp [cadence]
  | succ k ih =>
    intro n now g hcont hk
    obtain ⟨p, hp, hrun⟩ := hcont 0 (by omega)
    simp only [Nat.zero_mul, Nat.add_zero] at hp
    have e0 : k + 1 + n = (k + n) + 1 := by omega
    rw [e0, pollTicks_sleep interval timeout _ _ now _ _
      (exitCodeCondition_continue c ctx name now g x p hp hrun)]
    have e1 : g + (k + 1) = g + 1 + k := by omega
    have e2 : now + (k + 1) * interval = now + interval + k * interval := by
      rw [Nat.succ_mul]; omega
    rw [e1, e2] at hk
    rw [ih n (now + interval) (g + 1) (keepsPolling_shift c ctx name interval k now g hcont) hk]
    simp [cadence, e1]

/-- After `k` inspections that keep polling, an inspection on a tick that finds the
first container terminated ends the poll with success and the exit code. -/
theorem pollTicks_exitCode_terminated (c : Client) (ctx : Context) (name : String)
    (interval timeout : Nat) (x : Int) (p : Pod) (first : ContainerStatus)
    (rest : List ContainerStatus) (status : ContainerStateTerminated)
    (hp : p.Status.ContainerStatuses = first :: rest)
    (hfirst : first.State.Terminated = some status) :
    ∀ (k n now g : Nat),
      (∀ j, j < k → ∃ q, c.k8s.Get ctx c.ns name (g + j) (now + j * interval) = .ok q ∧
        stillRunning q) →
      c.k8s.Get ctx c.ns name (g + k) (now + k * interval) = .ok p →
      pollTicks interval timeout (exitCodeCondition c ctx name) (k + n) now
          { exitCode := x, gets := g } =
        { err := none, vars := { exitCode := status.ExitCode, gets := g + k + 1 }
          events := cadence interval now k } := by
  intro k
  induction k with
  | zero =>
    intro n now g _ hk
    simp only [Nat.zero_mul, Nat.add_zero] at hk
    rw [pollTicks_done interval timeout _ _ now _ _
      (exitCodeCondition_terminated c ctx name now g x p first rest status hk hp hfirst)]
    simp [cadence]
  | succ k ih =>
    intro n now g hcont hk
    obtain ⟨q, hq, hrun⟩ := hcont 0 (by omega)
    simp only [Nat.zero_mul, Nat.add_zero] at hq
    have e0 : k + 1 + n = (k + n) + 1 := by omega
    rw [e0, pollTicks_sleep interval timeout _ _ now _ _
      (exitCodeCondition_continue c ctx name now g x q hq hrun)]
    have e1 : g + (k + 1) = g + 1 + k := by omega
    have e2 : now + (k + 1) * interval = now + interval + k * interval := by
      rw [Nat.succ_mul]; omega
    rw [e1, e2] at hk
    rw [ih n (now + interval) (g + 1) (keepsPolling_shift c ctx name interval k now g hcont) hk]
    simp [cadence, e1]

/-- When the inspections on all the ticks keep polling, the poll comes to its last
check, after the cadence of the ticks. -/
theorem pollTicks_exitCode_reaches_last (c : Client) (ctx : Context) (name : String)
    (interval timeout : Nat) (x : Int) :
    ∀ (k now g : Nat),
      (∀ j, j < k + 1 → ∃ p, c.k8s.Get ctx c.ns name (g + j) (now + j * interval) = .ok p ∧
        stillRunning p) →
      pollTicks interval timeout (exitCodeCondition c ctx name) k now
          { exitCode := x, gets := g } =
        { err := (lastCheck timeout (exitCodeCondition c ctx name) (now + k * interval)
            { exitCode := x, gets := g + k + 1 }).err
          vars := (lastCheck timeout (exitCodeCondition c ctx name) (now + k * interval)
            { exitCode := x, gets := g + k + 1 }).vars
          events := cadence interval now k ++
            [.wait (now + k * interval) timeout, .deadline timeout, .inspect timeout] } := by
  intro k
  induction k with
  | zero =>
    intro now g hcont
    obtain ⟨p, hp, hrun⟩ := hcont 0 (by omega)
    simp only [Nat.zero_mul, Nat.add_zero] at hp
    rw [pollTicks_out_of_ticks interval timeout _ now _ _
      (exitCodeCondition_continue c ctx name now g x p hp hrun)]
    simp [cadence, lastCheck_events]
  | succ k ih =>
    intro now g hcont
    obtain ⟨p, hp, hrun⟩ := hcont 0 (by omega)
    simp only [Nat.zero_mul, Nat.add_zero] at hp
    rw [pollTicks_sleep interval timeout _ _ now _ _
      (exitCodeCondition_continue c ctx name now g x p hp hrun)]
    have e1 : g + (k + 1) = g + 1 + k := by omega
    have e2 : now + (k + 1) * interval = now + interval + k * interval := by
      rw [Nat.succ_mul]; omega
    rw [ih (now + interval) (g + 1) (keepsPolling_shift c ctx name interval (k + 1) now g hcont)]
    simp [cadence, e1, e2]

/-- After `k` inspections that keep polling, with the ticks for them, the poll makes
at least one more inspection. -/
theorem pollTicks_exitCode_goes_on (c : Client) (ctx : Context) (name : String)
    (interval timeout : Nat) (x : Int) :
    ∀ (k n now g : Nat),
      (∀ j, j < k → ∃ p, c.k8s.Get ctx c.ns name (g + j) (now + j * interval) = .ok p ∧
        stillRunning p) →
      k + 1 ≤ inspections
        (pollTicks interval timeout (exitCodeCondition c ctx name) (k + n) now
          { exitCode := x, gets := g }).events := by
  intro k
  induction k with
  | zero =>
    intro n now g _
    simp only [Nat.zero_add]
    exact pollTicks_inspections_pos interval timeout _ n now _
  | succ k ih =>
    intro n now g hcont
    obtain ⟨p, hp, hrun⟩ := hcont 0 (by omega)
    simp only [Nat.zero_mul, Nat.add_zero] at hp
    have e0 : k + 1 + n = (k + n) + 1 := by omega
    rw [e0, pollTicks_sleep interval timeout _ _ now _ _
      (exitCodeCondition_continue c ctx name now g x p hp hrun)]
    have hrest := ih n (now + interval) (g + 1)
      (keepsPolling_shift c ctx name interval k now g hcont)
    simp only [inspections]
    omega

/-- The timeout of `GetPodExitCode` holds forty intervals. -/
theorem exitCode_ticks : 2 * Minute / (3 * Second) = 40 := by decide

/-! ## Shape of a cadence -/

theorem inspections_cadence (interval : Nat) :
    ∀ (k start : Nat), inspections (cadence interval start k) = k + 1 := by
  intro k
  induction k with
  | zero => intro start; simp [cadence, inspections]
  | succ k ih => intro start; simp [cadence, inspections, ih]

theorem waits_cadence (interval : Nat) :
    ∀ (k start : Nat), waits (cadence interval start k) = k := by
  intro k
  induction k with
  | zero => intro start; simp [cadence, waits]
  | succ k ih => intro start; simp [cadence, waits, ih]

theorem returnedAt_cadence (interval : Nat) :
    ∀ (k start : Nat), returnedAt (cadence interval start k) = start + k * interval := by
  intro k
  induction k with
  | zero => intro start; simp [cadence, returnedAt]
  | succ k ih =>
    intro start
    have hshape : ∃ e es, cadence interval (start + interval) k = e :: es := by
      cases k with
      | zero => exact ⟨_, _, rfl⟩
      | succ k => exact ⟨_, _, rfl⟩
    obtain ⟨e, es, hes⟩ := hshape
    have hrec := ih (start + interval)
    rw [hes] at hrec
    simp only [cadence, hes, returnedAt, hrec]
    rw [Nat.succ_mul]; omega

theorem inspect_mem_cadence (interval : Nat) :
    ∀ (k start t : Nat), PollEvent.inspect t ∈ cadence interval start k →
      t ≤ start + k * interval := by
  intro k
  induction k with
  | zero =>
    intro start t h
    simp [cadence] at h
    omega
  | succ k ih =>
    intro start t h
    simp only [cadence, List.mem_cons, PollEvent.inspect.injEq, reduceCtorEq, false_or] at h
    rcases h with h | h
    · subst h
      exact Nat.le_add_right _ _
    · have hle := ih (start + interval) t h
      rw [Nat.succ_mul]; omega

theorem last_wait_mem_cadence (interval : Nat) :
    ∀ (k start : Nat),
      PollEvent.wait (start + k * interval) (start + (k + 1) * interval) ∈
        cadence interval start (k + 1) := by
  intro k
  induction k with
  | zero => intro start; simp [cadence]
  | succ k ih =>
    intro start
    have hrec := ih (start + interval)
    have e1 : start + interval + k * interval = start + (k + 1) * interval := by
      rw [Nat.succ_mul]; omega
    have e2 : start + interval + (k + 1) * interval = start + (k + 1 + 1) * interval := by
      rw [Nat.succ_mul (k + 1)]; omega
    rw [e1, e2] at hrec
    rw [cadence]
    simp [hrec]

/-! ## The inspections of `GetPodExitCode` -/

theorem inspectionInstant_tick (j : Nat) (hj : j ≤ 40) :
    inspectionInstant j = j * (3 * Second) := by
  simp only [inspectionInstant, Minute, Second]
  omega

theorem inspectionInstant_last (j : Nat) (hj : 40 ≤ j) : inspectionInstant j = 2 * Minute := by
  simp only [inspectionInstant, Minute, Second]
  omega

theorem exitCodeEvents_tick (k : Nat) (hk : k ≤ 40) :
    exitCodeEvents k = cadence (3 * Second) 0 k := by
  simp [exitCodeEvents, hk]

theorem exitCodeEvents_last (k : Nat) (hk : 41 ≤ k) :
    exitCodeEvents k = cadence (3 * Second) 0 40 ++
      [.wait (2 * Minute) (2 * Minute), .deadline (2 * Minute), .inspect (2 * Minute)] := by
  have hnot : ¬ k ≤ 40 := by omega
  simp [exitCodeEvents, hnot]

theorem inspections_exitCodeEvents_last :
    inspections (cadence (3 * Second) 0 40 ++
      [.wait (2 * Minute) (2 * Minute), .deadline (2 * Minute), .inspect (2 * Minute)]) = 42 := by
  decide

/-- The hypothesis "the first `k` inspections keep polling", for inspections on
ticks, in the form the lemmas on the poll loop take it. -/
theorem keepsPolling_ticks (c : Client) (ctx : Context) (name : String) (k : Nat)
    (hk : k ≤ 41)
    (hcont : ∀ j, j < k →
      ∃ p, c.k8s.Get ctx c.ns name j (inspectionInstant j) = .ok p ∧ stillRunning p) :
    ∀ j, j < k →
      ∃ p, c.k8s.Get ctx c.ns name (0 + j) (0 + j * (3 * Second)) = .ok p ∧
        stillRunning p := by
  intro j hj
  have h := hcont j hj
  rw [inspectionInstant_tick j (by omega)] at h
  simpa using h

/-- When the 41 inspections on ticks keep polling, `GetPodExitCode` returns what
the last check gives, after the events of the ticks, the timeout and that check. -/
theorem GetPodExitCode_last_check (c : Client) (ctx : Context) (name : String)
    (hcont : ∀ j, j < 41 →
      ∃ p, c.k8s.Get ctx c.ns name j (inspectionInstant j) = .ok p ∧ stillRunning p) :
    GetPodExitCode c ctx name =
      { exitCode := (lastCheck (2 * Minute) (exitCodeCondition c ctx name) (2 * Minute)
          { exitCode := 0, gets := 41 }).vars.exitCode
        err := (lastCheck (2 * Minute) (exitCodeCondition c ctx name) (2 * Minute)
          { exitCode := 0, gets := 41 }).err
        events := cadence (3 * Second) 0 40 ++
          [.wait (2 * Minute) (2 * Minute), .deadline (2 * Minute), .inspect (2 * Minute)] } := by
  have hrun := pollTicks_exitCode_reaches_last c ctx name (3 * Second) (2 * Minute) 0 40 0 0
    (keepsPolling_ticks c ctx name 41 (by omega) hcont)
  have h120 : 0 + 40 * (3 * Second) = 2 * Minute := by decide
  rw [h120] at hrun
  simp only [GetPodExitCode, PollImmediate, exitCode_ticks, hrun]

/-! ## Claims on `GetPodExitCode` -/

/-- C4: the condition of `GetPodExitCode` answers `(false, err)` to a `Get` error,
`(false, nil)` to a pod with no container status or whose first container status
has no `Terminated` state (whatever its `Waiting` and `Running` states), and
`(true, nil)`, storing the exit code, to a first container that has terminated.
In a run of `GetPodExitCode` whose first `k` inspections found a pod of the second
kind, the poll went on through all of them. At inspection `k`, whichever of the 42
inspections of a run it is (one every 3 s from 0 s to 120 s, and the last check
when the timeout has fired): a `Get` error ends the poll at once and is the error
returned, with exit code 0; a first container terminated with exit code `e` makes
the call return `(e, nil)`; in both cases exactly `k + 1` inspections were made,
none after that one. A pod that has still not terminated makes the poll inspect
again, at every inspection but the last check; and when all 42 inspections found
such a pod, the run ends with the timeout error: no sequence of results is fed
to the condition beyond them. -/
theorem GetPodExitCode_inspection_outcomes (c : Client) (ctx : Context) (name : String)
    (k : Nat)
    (hcont : ∀ j, j < k →
      ∃ p, c.k8s.Get ctx c.ns name j (inspectionInstant j) = .ok p ∧ stillRunning p) :
    (∀ now v err, c.k8s.Get ctx c.ns name v.gets now = .error err →
      (exitCodeCondition c ctx name now v).1 = (false, some err)) ∧
    (∀ now v p, c.k8s.Get ctx c.ns name v.gets now = .ok p → stillRunning p →
      (exitCodeCondition c ctx name now v).1 = (false, none)) ∧
    (∀ now v p first rest e, c.k8s.Get ctx c.ns name v.gets now = .ok p →
      p.Status.ContainerStatuses = first :: rest →
      first.State.Terminated = some { ExitCode := e } →
      (exitCodeCondition c ctx name now v).1 = (true, none) ∧
        (exitCodeCondition c ctx name now v).2.exitCode = e) ∧
    (∀ err, k ≤ 41 → c.k8s.Get ctx c.ns name k (inspectionInstant k) = .error err →
      GetPodExitCode c ctx name =
        { exitCode := 0, err := some err, events := exitCodeEvents k } ∧
      inspections (GetPodExitCode c ctx name).events = k + 1) ∧
    (∀ p first rest e, k ≤ 41 →
      c.k8s.Get ctx c.ns name k (inspectionInstant k) = .ok p →
      p.Status.ContainerStatuses = first :: rest →
      first.State.Terminated = some { ExitCode := e } →
      GetPodExitCode c ctx name =
        { exitCode := e, err := none, events := exitCodeEvents k } ∧
      inspections (GetPodExitCode c ctx name).events = k + 1) ∧
    (∀ p, k ≤ 40 → c.k8s.Get ctx c.ns name k (inspectionInstant k) = .ok p →
      stillRunning p → k + 2 ≤ inspections (GetPodExitCode c ctx name).events) ∧
    (42 ≤ k →
      GetPodExitCode c ctx name =
        { exitCode := 0, err := some Error.deadlineExceeded, events := exitCodeEvents 41 } ∧
      inspections (GetPodExitCode c ctx name).events = 42) := by
  refine ⟨?_, ?_, ?_, ?_, ?_, ?_, ?_⟩
  · intro now v err hget
    obtain ⟨x, g⟩ := v
    rw [exitCodeCondition_error c ctx name now g x err hget]
  · intro now v p hget hp
    obtain ⟨x, g⟩ := v
    rw [exitCodeCondition_continue c ctx name now g x p hget hp]
  · intro now v p first rest e hget hp hfirst
    obtain ⟨x, g⟩ := v
    rw [exitCodeCondition_terminated c ctx name now g x p first rest { ExitCode := e } hget hp
      hfirst]
    exact ⟨rfl, rfl⟩
  · intro err hk hget
    rcases Nat.lt_or_ge k 41 with hlt | hge
    · have hk40 : k ≤ 40 := by omega
      rw [inspectionInstant_tick k hk40] at hget
      have hget0 : c.k8s.Get ctx c.ns name (0 + k) (0 + k * (3 * Second)) = .error err := by
        simpa using hget
      have hrun := pollTicks_exitCode_error c ctx name (3 * Second) (2 * Minute) err 0 k (40 - k)
        0 0 (keepsPolling_ticks c ctx name k hk hcont) hget0
      have hsplit : k + (40 - k) = 40 := by omega
      rw [hsplit] at hrun
      have hval : GetPodExitCode c ctx name =
          { exitCode := 0, err := some err, events := exitCodeEvents k } := by
        rw [exitCodeEvents_tick k hk40]
        simp [GetPodExitCode, PollImmediate, exitCode_ticks, hrun]
      rw [hval]
      refine ⟨rfl, ?_⟩
      show inspections (exitCodeEvents k) = k + 1
      rw [exitCodeEvents_tick k hk40]
      exact inspections_cadence _ _ _
    · have hk41 : k = 41 := by omega
      subst hk41
      rw [inspectionInstant_last 41 (by omega)] at hget
      have hlast := lastCheck_error (2 * Minute) (exitCodeCondition c ctx name) (2 * Minute) _ _
        false err (exitCodeCondition_error c ctx name (2 * Minute) 41 0 err hget)
      have hval : GetPodExitCode c ctx name =
          { exitCode := 0, err := some err, events := exitCodeEvents 41 } := by
        rw [GetPodExitCode_last_check c ctx name hcont, hlast,
          exitCodeEvents_last 41 (by omega)]
      rw [hval]
      refine ⟨rfl, ?_⟩
      show inspections (exitCodeEvents 41) = 41 + 1
      rw [exitCodeEvents_last 41 (by omega)]
      exact inspections_exitCodeEvents_last
  · intro p first rest e hk hget hp hfirst
    rcases Nat.lt_or_ge k 41 with hlt | hge
    · have hk40 : k ≤ 40 := by omega
      rw [inspectionInstant_tick k hk40] at hget
      have hget0 : c.k8s.Get ctx c.ns name (0 + k) (0 + k * (3 * Second)) = .ok p := by
        simpa using hget
      have hrun := pollTicks_exitCode_terminated c ctx name (3 * Second) (2 * Minute) 0 p first
        rest { ExitCode := e } hp hfirst k (40 - k) 0 0
        (keepsPolling_ticks c ctx name k hk hcont) hget0
      have hsplit : k + (40 - k) = 40 := by omega
      rw [hsplit] at hrun
      have hval : GetPodExitCode c ctx name =
          { exitCode := e, err := none, events := exitCodeEvents k } := by
        rw [exitCodeEvents_tick k hk40]
        simp [GetPodExitCode, PollImmediate, exitCode_ticks, hrun]
      rw [hval]
      refine ⟨rfl, ?_⟩
      show inspections (exitCodeEvents k) = k + 1
      rw [exitCodeEvents_tick k hk40]
      exact inspections_cadence _ _ _
    · have hk41 : k = 41 := by omega
      subst hk41
      rw [inspectionInstant_last 41 (by omega)] at hget
      have hlast := lastCheck_done (2 * Minute) (exitCodeCondition c ctx name) (2 * Minute) _ _
        (exitCodeCondition_terminated c ctx name (2 * Minute) 41 0 p first rest
          { ExitCode := e } hget hp hfirst)
      have hval : GetPodExitCode c ctx name =
          { exitCode := e, err := none, events := exitCodeEvents 41 } := by
        rw [GetPodExitCode_last_check c ctx name hcont, hlast,
          exitCodeEvents_last 41 (by omega)]
      rw [hval]
      refine ⟨rfl, ?_⟩
      show inspections (exitCodeEvents 41) = 41 + 1
      rw [exitCodeEvents_last 41 (by omega)]
      exact inspections_exitCodeEvents_last
  · intro p hk hget hp
    have hcont1 : ∀ j, j < k + 1 →
        ∃ q, c.k8s.Get ctx c.ns name j (inspectionInstant j) = .ok q ∧ stillRunning q := by
      intro j hj
      rcases Nat.lt_succ_iff_lt_or_eq.mp hj with hj | hj
      · exact hcont j hj
      · subst hj
        exact ⟨p, hget, hp⟩
    rcases Nat.lt_or_ge k 40 with hlt | hge
    · have hmore := pollTicks_exitCode_goes_on c ctx name (3 * Second) (2 * Minute) 0 (k + 1)
        (40 - (k + 1)) 0 0 (keepsPolling_ticks c ctx name (k + 1) (by omega) hcont1)
      have hsplit : k + 1 + (40 - (k + 1)) = 40 := by omega
      rw [hsplit] at hmore
      simpa [GetPodExitCode, PollImmediate, exitCode_ticks] using hmore
    · have hk40 : k = 40 := by omega
      subst hk40
      rw [GetPodExitCode_last_check c ctx name hcont1]
      show 40 + 2 ≤ inspections (cadence (3 * Second) 0 40 ++
        [.wait (2 * Minute) (2 * Minute), .deadline (2 * Minute), .inspect (2 * Minute)])
      rw [inspections_exitCodeEvents_last]
  · intro hk
    obtain ⟨p, hget, hp⟩ := hcont 41 (by omega)
    rw [inspectionInstant_last 41 (by omega)] at hget
    have hlast := lastCheck_expired (2 * Minute) (exitCodeCondition c ctx name) (2 * Minute) _ _
      (exitCodeCondition_continue c ctx name (2 * Minute) 41 0 p hget hp)
    have hval : GetPodExitCode c ctx name =
        { exitCode := 0, err := some Error.deadlineExceeded, events := exitCodeEvents 41 } := by
      rw [GetPodExitCode_last_check c ctx name (fun j hj => hcont j (by omega)), hlast,
        exitCodeEvents_last 41 (by omega)]
    rw [hval]
    refine ⟨rfl, ?_⟩
    show inspections (exitCodeEvents 41) = 42
    rw [exitCodeEvents_last 41 (by omega)]
    exact inspections_exitCodeEvents_last

/-- Witness of C4 on `lateCluster`: the 41 inspections on ticks keep polling, and
the last check, made when the timeout has fired, finds exit code 7, which is
returned after 42 inspections. -/
theorem GetPodExitCode_inspection_outcomes_witness :
    GetPodExitCode { k8s := lateCluster, ns := "default" } Background "rtw" =
        { exitCode := 7, err := none, events := exitCodeEvents 41 } ∧
      inspections
        (GetPodExitCode { k8s := lateCluster, ns := "default" } Background "rtw").events =
          41 + 1 :=
  (GetPodExitCode_inspection_outcomes { k8s := lateCluster, ns := "default" } Background "rtw" 41
    (by
      intro j hj
      refine ⟨pendingPod, ?_, Or.inl rfl⟩
      show (if j < 41 then (Except.ok pendingPod : Except Error Pod)
        else Except.ok (terminatedPod 7)) = _
      rw [if_pos hj])).2.2.2.2.1
    (terminatedPod 7) _ _ 7 (by decide) rfl rfl rfl

/-- C5, counterexample: on `stuckCluster`, whose pod stays pending, `GetPodExitCode`
makes 42 inspections, and the last of them comes after the 2 minute timeout has
fired. -/
theorem GetPodExitCode_inspects_after_deadline :
    GetPodExitCode { k8s := stuckCluster, ns := "default" } Background "rtw" =
        { exitCode := 0, err := some Error.deadlineExceeded
          events := cadence (3 * Second) 0 40 ++
            [.wait (2 * Minute) (2 * Minute), .deadline (2 * Minute),
              .inspect (2 * Minute)] } ∧
      inspections
        (GetPodExitCode { k8s := stuckCluster, ns := "default" } Background "rtw").events =
          42 ∧
      inspectionsAfterDeadline
        (GetPodExitCode { k8s := stuckCluster, ns := "default" } Background "rtw").events ≠
          0 := by
  decide

/-- C5, amended: when no inspection ever fails or finds the first container
terminated, `GetPodExitCode` returns exit code 0 with the timeout error after
exactly 42 inspections: 41 on the ticks (at 0 s, 3 s, ..., 120 s), and exactly
one more, the last check, after the 2 minute timeout has fired; no inspection is
made at an instant later than the timeout. -/
theorem GetPodExitCode_times_out (c : Client) (ctx : Context) (name : String)
    (hnever : ∀ seq now, ∃ p, c.k8s.Get ctx c.ns name seq now = .ok p ∧ stillRunning p) :
    GetPodExitCode c ctx name =
        { exitCode := 0, err := some Error.deadlineExceeded
          events := cadence (3 * Second) 0 40 ++
            [.wait (2 * Minute) (2 * Minute), .deadline (2 * Minute),
              .inspect (2 * Minute)] } ∧
      inspections (GetPodExitCode c ctx name).events = 42 ∧
      inspectionsAfterDeadline (GetPodExitCode c ctx name).events = 1 ∧
      ∀ t, PollEvent.inspect t ∈ (GetPodExitCode c ctx name).events → t ≤ 2 * Minute := by
  obtain ⟨p, hget, hp⟩ := hnever 41 (2 * Minute)
  have hlast := lastCheck_expired (2 * Minute) (exitCodeCondition c ctx name) (2 * Minute) _ _
    (exitCodeCondition_continue c ctx name (2 * Minute) 41 0 p hget hp)
  have hval : GetPodExitCode c ctx name =
      { exitCode := 0, err := some Error.deadlineExceeded
        events := cadence (3 * Second) 0 40 ++
          [.wait (2 * Minute) (2 * Minute), .deadline (2 * Minute),
            .inspect (2 * Minute)] } := by
    rw [GetPodExitCode_last_check c ctx name (fun j _ => hnever j (inspectionInstant j)), hlast]
  rw [hval]
  refine ⟨rfl, by decide, by decide, ?_⟩
  intro t ht
  rcases List.mem_append.mp ht with h | h
  · have hle := inspect_mem_cadence (3 * Second) 40 0 t h
    have h120 : 0 + 40 * (3 * Second) = 2 * Minute := by decide
    omega
  · simp only [List.mem_cons, PollEvent.inspect.injEq, reduceCtorEq, false_or,
      List.mem_singleton, List.not_mem_nil, or_false] at h
    omega

/-- Witness of the amended C5 on `stuckCluster`, whose pod stays pending. -/
theorem GetPodExitCode_times_out_witness :
    (GetPodExitCode { k8s := stuckCluster, ns := "default" } Background "rtw").err =
        some Error.deadlineExceeded ∧
      inspections
        (GetPodExitCode { k8s := stuckCluster, ns := "default" } Background "rtw").events = 42 :=
  have h := GetPodExitCode_times_out { k8s := stuckCluster, ns := "default" } Background "rtw"
    (fun _ _ => ⟨pendingPod, rfl, Or.inl rfl⟩)
  ⟨by rw [h.1], h.2.1⟩

/-- C6: when the first inspection finds the first container terminated with exit
code `e`, `GetPodExitCode` returns `(e, nil)`, and all its poller did is that one
inspection, at elapsed time 0: one inspection, no sleep. -/
theorem GetPodExitCode_immediate (c : Client) (ctx : Context) (name : String) (p : Pod)
    (first : ContainerStatus) (rest : List ContainerStatus) (e : Int)
    (hget : c.k8s.Get ctx c.ns name 0 0 = .ok p)
    (hp : p.Status.ContainerStatuses = first :: rest)
    (hfirst : first.State.Terminated = some { ExitCode := e }) :
    GetPodExitCode c ctx name = { exitCode := e, err := none, events := [.inspect 0] } ∧
      inspections (GetPodExitCode c ctx name).events = 1 ∧
      waits (GetPodExitCode c ctx name).events = 0 := by
  have hcond := exitCodeCondition_terminated c ctx name 0 0 0 p first rest { ExitCode := e }
    hget hp hfirst
  have hrun := pollTicks_done (3 * Second) (2 * Minute) (exitCodeCondition c ctx name) 40 0
    _ _ hcond
  have hval : GetPodExitCode c ctx name =
      { exitCode := e, err := none, events := [.inspect 0] } := by
    simp [GetPodExitCode, PollImmediate, exitCode_ticks, hrun]
  rw [hval]
  exact ⟨rfl, rfl, rfl⟩

/-- Witness of C6 on `muteCluster`, whose pod has terminated with exit code 1 at the
first inspection. -/
theorem GetPodExitCode_immediate_witness :
    GetPodExitCode { k8s := muteCluster, ns := "default" } Background "rtw" =
      { exitCode := 1, err := none, events := [.inspect 0] } :=
  (GetPodExitCode_immediate { k8s := muteCluster, ns := "default" } Background "rtw"
    (terminatedPod 1) _ _ 1 rfl rfl rfl).1

/-! ## Cancellation -/

/-- C8, counterexample: on `stuckCluster`, with a context cancelled 1 s after the
start, that is during the sleep between the first inspection (at 0 s) and the
second (at 3 s), `GetPodExitCode` sleeps the whole interval, meets the cancellation
only in the `Get` of the inspection at 3 s, and returns then, not before. -/
theorem GetPodExitCode_cancel_counterexample :
    (0 < Second ∧ Second < 3 * Second) ∧
      GetPodExitCode { k8s := stuckCluster, ns := "default" } { cancelledAt := some Second }
          "rtw" =
        { exitCode := 0, err := some Error.cancelled
          events := [.inspect 0, .wait 0 (3 * Second), .inspect (3 * Second)] } ∧
      ¬ returnedAt
          (GetPodExitCode { k8s := stuckCluster, ns := "default" } { cancelledAt := some Second }
            "rtw").events < 3 * Second := by
  decide

/-- C8, amended: when the context is cancelled before inspection `k + 1` is due,
inspection `k` and those before it kept polling, and `Get` fails with the
cancellation error under a cancelled context, then the cancellation fell in the
sleep that follows inspection `k`, and `GetPodExitCode` returns exit code 0 with
the cancellation error from inspection `k + 1`: the sleep lasts its whole 3 s
interval, the call returns at the end of that interval, after the cancellation,
and no inspection follows. -/
theorem GetPodExitCode_cancel_at_next_tick (c : Client) (ctx : Context) (name : String)
    (cancel k : Nat) (hk : k < 40) (hctx : ctx.cancelledAt = some cancel)
    (hhi : cancel < (k + 1) * (3 * Second))
    (hcont : ∀ j, j < k + 1 →
      ∃ p, c.k8s.Get ctx c.ns name j (j * (3 * Second)) = .ok p ∧ stillRunning p)
    (hget : ∀ seq now, ctx.done now = true →
      c.k8s.Get ctx c.ns name seq now = .error Error.cancelled) :
    k * (3 * Second) < cancel ∧
      GetPodExitCode c ctx name =
        { exitCode := 0, err := some Error.cancelled
          events := cadence (3 * Second) 0 (k + 1) } ∧
      PollEvent.wait (k * (3 * Second)) ((k + 1) * (3 * Second)) ∈
        (GetPodExitCode c ctx name).events ∧
      returnedAt (GetPodExitCode c ctx name).events = (k + 1) * (3 * Second) ∧
      cancel < returnedAt (GetPodExitCode c ctx name).events ∧
      inspections (GetPodExitCode c ctx name).events = k + 2 := by
  have hlo : k * (3 * Second) < cancel := by
    by_contra hnot
    have hdone : ctx.done (k * (3 * Second)) = true := by
      simp only [Context.done, hctx, decide_eq_true_eq]
      omega
    obtain ⟨p, hp, _⟩ := hcont k (by omega)
    rw [hget k (k * (3 * Second)) hdone] at hp
    cases hp
  have hdone : ctx.done ((k + 1) * (3 * Second)) = true := by
    simp only [Context.done, hctx, decide_eq_true_eq]
    omega
  have hfail : c.k8s.Get ctx c.ns name (0 + (k + 1)) (0 + (k + 1) * (3 * Second)) =
      .error Error.cancelled := by
    simpa using hget (k + 1) ((k + 1) * (3 * Second)) hdone
  have hcont0 : ∀ j, j < k + 1 →
      ∃ p, c.k8s.Get ctx c.ns name (0 + j) (0 + j * (3 * Second)) = .ok p ∧
        stillRunning p := by
    intro j hj
    simpa using hcont j hj
  have hrun := pollTicks_exitCode_error c ctx name (3 * Second) (2 * Minute) Error.cancelled 0
    (k + 1) (40 - (k + 1)) 0 0 hcont0 hfail
  have hsplit : k + 1 + (40 - (k + 1)) = 40 := by omega
  rw [hsplit] at hrun
  have hval : GetPodExitCode c ctx name =
      { exitCode := 0, err := some Error.cancelled
        events := cadence (3 * Second) 0 (k + 1) } := by
    simp [GetPodExitCode, PollImmediate, exitCode_ticks, hrun]
  have hret : returnedAt (cadence (3 * Second) 0 (k + 1)) = (k + 1) * (3 * Second) := by
    simpa using returnedAt_cadence (3 * Second) (k + 1) 0
  rw [hval]
  refine ⟨hlo, rfl, ?_, hret, ?_, inspections_cadence _ _ _⟩
  · simpa using last_wait_mem_cadence (3 * Second) k 0
  · show cancel < returnedAt (cadence (3 * Second) 0 (k + 1))
    rw [hret]
    exact hhi

/-- Witness of the amended C8 on `stuckCluster`, the context cancelled after 1 s. -/
theorem GetPodExitCode_cancel_at_next_tick_witness :
    returnedAt
        (GetPodExitCode { k8s := stuckCluster, ns := "default" } { cancelledAt := some Second }
          "rtw").events = (0 + 1) * (3 * Second) :=
  (GetPodExitCode_cancel_at_next_tick { k8s := stuckCluster, ns := "default" }
    { cancelledAt := some Second } "rtw" Second 0 (by decide) rfl (by decide)
    (by
      intro j hj
      have hj0 : j = 0 := by omega
      subst hj0
      exact ⟨pendingPod, rfl, Or.inl rfl⟩)
    (by
      intro seq now hdone
      show (if Context.done { cancelledAt := some Second } now = true then
        (Except.error Error.cancelled : Except Error Pod) else Except.ok pendingPod) = _
      rw [if_pos hdone])).2.2.2.1

/-! ## Claims on the handler -/

/-- C1: when `CreatePod` succeeds, `GetPodExitCode` returns exit code `e` without
error and `GetPodStdOut` returns `s` without error, the handler calls `CreatePod`,
`GetPodExitCode` and `GetPodStdOut` once each, in this order, starts the deletion
goroutine, and answers with status 200 and the body `(e, s)`. -/
theorem handler_success (cli : Client) (rb : RequestBody) (e : Int) (s : String)
    (hcreate : CreatePod cli Background "rtw" rb.Image rb.Command rb.Args = none)
    (herr : (GetPodExitCode cli Background "rtw").err = none)
    (hcode : (GetPodExitCode cli Background "rtw").exitCode = e)
    (hout : GetPodStdOut cli Background "rtw" = (s, none)) :
    handler cli (.ok rb) =
      [.CreatePod "rtw" rb.Image rb.Command rb.Args, .GetPodExitCode "rtw",
        .GetPodStdOut "rtw", .goDeletePod "rtw",
        .SetHeader "Content-type" "application/json", .WriteHeader 200,
        .Encode { ExitCode := e, Output := s }] := by
  simp [handler, hcreate, herr, hcode, hout]

/-- Witness of C1: the scenario of the spec, on `echoCluster`. -/
theorem handler_success_witness :
    handler { k8s := echoCluster, ns := "default" } (.ok echoRequest) =
      [.CreatePod "rtw" "alpine" "echo" ["hi"], .GetPodExitCode "rtw",
        .GetPodStdOut "rtw", .goDeletePod "rtw",
        .SetHeader "Content-type" "application/json", .WriteHeader 200,
        .Encode { ExitCode := 0, Output := "hi\n" }] :=
  handler_success { k8s := echoCluster, ns := "default" } echoRequest 0 "hi\n"
    (by decide) (by decide) (by decide) (by decide)

/-- C2, evaluation at the failing inputs: when the pod is created and then the
inspection fails (`vanishingCluster`), the poll times out (`stuckCluster`) or the
logs cannot be read (`muteCluster`), the handler answers with the error and stops;
it does not start the deletion of the pod. -/
theorem handler_failure_leaves_pod :
    handler { k8s := vanishingCluster, ns := "default" } (.ok echoRequest) =
        [.CreatePod "rtw" "alpine" "echo" ["hi"], .GetPodExitCode "rtw",
          .httpError (Error.failure "pods rtw not found") 500] ∧
      handler { k8s := stuckCluster, ns := "default" } (.ok echoRequest) =
        [.CreatePod "rtw" "alpine" "echo" ["hi"], .GetPodExitCode "rtw",
          .httpError Error.deadlineExceeded 500] ∧
      handler { k8s := muteCluster, ns := "default" } (.ok echoRequest) =
        [.CreatePod "rtw" "alpine" "echo" ["hi"], .GetPodExitCode "rtw",
          .GetPodStdOut "rtw", .httpError (Error.failure "container log unavailable") 500] ∧
      Effect.goDeletePod "rtw" ∉
        handler { k8s := vanishingCluster, ns := "default" } (.ok echoRequest) ∧
      Effect.goDeletePod "rtw" ∉
        handler { k8s := stuckCluster, ns := "default" } (.ok echoRequest) ∧
      Effect.goDeletePod "rtw" ∉
        handler { k8s := muteCluster, ns := "default" } (.ok echoRequest) := by
  decide

/-- C3: when `CreatePod` returns an error, all the handler does is call `CreatePod`
and answer with that error (status 500): it calls none of `GetPodExitCode`,
`GetPodStdOut` and `DeletePod`. -/
theorem handler_create_failure (cli : Client) (rb : RequestBody) (err : Error)
    (hcreate : CreatePod cli Background "rtw" rb.Image rb.Command rb.Args = some err) :
    handler cli (.ok rb) =
        [.CreatePod "rtw" rb.Image rb.Command rb.Args, .httpError err 500] ∧
      Effect.GetPodExitCode "rtw" ∉ handler cli (.ok rb) ∧
      Effect.GetPodStdOut "rtw" ∉ handler cli (.ok rb) ∧
      Effect.goDeletePod "rtw" ∉ handler cli (.ok rb) := by
  have hval : handler cli (.ok rb) =
      [.CreatePod "rtw" rb.Image rb.Command rb.Args, .httpError err 500] := by
    simp [handler, hcreate]
  rw [hval]
  simp

/-- Witness of C3 on `refusingCluster`. -/
theorem handler_create_failure_witness :
    handler { k8s := refusingCluster, ns := "default" } (.ok echoRequest) =
      [.CreatePod "rtw" "alpine" "echo" ["hi"],
        .httpError (Error.failure "pods rtw already exists") 500] :=
  (handler_create_failure { k8s := refusingCluster, ns := "default" } echoRequest
    (Error.failure "pods rtw already exists") (by decide)).1

/-- C7: when `CreatePod` succeeds, `GetPodExitCode` returns an exit code without
error and `GetPodStdOut` then fails with `err`, the handler answers with `err` and
status 500 once, and writes no `ResponseBody`, no status 200 and no header. -/
theorem handler_output_failure (cli : Client) (rb : RequestBody) (e : Int) (out : String)
    (err : Error)
    (hcreate : CreatePod cli Background "rtw" rb.Image rb.Command rb.Args = none)
    (herr : (GetPodExitCode cli Background "rtw").err = none)
    (_hcode : (GetPodExitCode cli Background "rtw").exitCode = e)
    (hout : GetPodStdOut cli Background "rtw" = (out, some err)) :
    handler cli (.ok rb) =
        [.CreatePod "rtw" rb.Image rb.Command rb.Args, .GetPodExitCode "rtw",
          .GetPodStdOut "rtw", .httpError err 500] ∧
      (∀ body, Effect.Encode body ∉ handler cli (.ok rb)) ∧
      (∀ code, Effect.WriteHeader code ∉ handler cli (.ok rb)) := by
  have hval : handler cli (.ok rb) =
      [.CreatePod "rtw" rb.Image rb.Command rb.Args, .GetPodExitCode "rtw",
        .GetPodStdOut "rtw", .httpError err 500] := by
    simp [handler, hcreate, herr, hout]
  rw [hval]
  simp

/-- Witness of C7 on `muteCluster`: exit code 1, logs unreadable. -/
theorem handler_output_failure_witness :
    handler { k8s := muteCluster, ns := "default" } (.ok echoRequest) =
      [.CreatePod "rtw" "alpine" "echo" ["hi"], .GetPodExitCode "rtw",
        .GetPodStdOut "rtw", .httpError (Error.failure "container log unavailable") 500] :=
  (handler_output_failure { k8s := muteCluster, ns := "default" } echoRequest 1 ""
    (Error.failure "container log unavailable") (by decide) (by decide) (by decide)
    (by decide)).1

/-! ## Claim on `CreatePod` -/

/-- C9: the pod that `CreatePod` submits has the given name, restart policy `Never`
and exactly one container, named "main", with the given image, the command as a
one-element list and the given arguments in order; the pod is the same for every
cluster, and `CreatePod` returns exactly what `Create` returns for it. -/
theorem CreatePod_submits (name image command : String) (args : List String) :
    ∃ pod : Pod,
      pod.ObjectMeta.Name = name ∧
      pod.Spec.RestartPolicy = RestartPolicy.Never ∧
      pod.Spec.Containers =
        [{ Name := "main", Image := image, Command := [command], Args := args }] ∧
      pod.Spec.Containers.length = 1 ∧
      ∀ (c : Client) (ctx : Context),
        CreatePod c ctx name image command args = c.k8s.Create ctx c.ns pod :=
  ⟨{ ObjectMeta := { Name := name }
     Spec :=
       { RestartPolicy := RestartPolicy.Never
         Containers :=
           [{ Name := "main", Image := image, Command := [command], Args := args }] }
     Status := { ContainerStatuses := [] } },
    rfl, rfl, rfl, rfl, fun _ _ => rfl⟩

end RunningPods

namespace influxdb

/-- Outside the terminal class, `convertToMetric` returns a metric, and its category
is one of the four of the table. -/
theorem convertToMetric_returns (class_ title : String)
    (h : class_ ≠ "gnome-terminal-server") :
    ∃ m, convertToMetric class_ title = some m ∧
      (m.category = WORK_CATEGORY ∨ m.category = SOCIAL_CATEGORY ∨
        m.category = GAME_CATEGORY ∨ m.category = UNKNOWN_CATEGORY) := by
  unfold convertToMetric
  rw [if_neg h]
  split
  · refine ⟨_, rfl, ?_⟩
    simp only [convertBrowserCategory]
    split <;> simp
  · split
    · exact ⟨_, rfl, by simp⟩
    · split
      · exact ⟨_, rfl, by simp⟩
      · split
        · split
          · exact ⟨_, rfl, by simp⟩
          · exact ⟨_, rfl, by simp⟩
        · exact ⟨_, rfl, by simp⟩

/-- C10, evaluation at the failing input: for the class "gnome-terminal-server" and
the title "bash", which holds no " - ", `strings.Split` gives one piece, the index
expression `windowTitle[1]` is out of range, and `convertToMetric` panics instead
of returning a metric; with a separator in the title it returns the work metric. -/
theorem convertToMetric_terminal_panics :
    Split "bash" " - " = ["bash"] ∧
      convertTerminalAppName "bash" = none ∧
      convertToMetric "gnome-terminal-server" "bash" = none ∧
      convertToMetric "gnome-terminal-server" "vim - bash" =
        some { category := WORK_CATEGORY, app := "bash" } := by
  decide

end influxdb
